import Mathlib

/-!
Verification of the analyzer dispatch core of `fanal` (`analyzer/analyzer.go`),
as a shallow embedding in Lean 4.

The Go file defines three process-wide registries of analyzer plugins
(OS, package, library), registration functions appending to them, a
required-files aggregator, two extraction entry points that wrap an
external docker extractor, and three resolvers: `GetOS` and `GetPackages`
use first-success-wins over the registered analyzers, `GetLibraries`
runs all registered library analyzers and merges their per-file maps.

Modelling conventions:
- A Go `(T, error)` return is `Except GoError T`.
- Go errors are modelled as an inductive `GoError` covering the error
  constructions used by the file: `errors.New`, `errors.Wrap`, and
  `xerrors.Errorf` with a `%w` wrap.
- The global registries become an explicit `Registry` state threaded
  through the functions; each Go function that read or wrote the globals
  takes or returns the `Registry`.
- Go maps (`extractor.FileMap`, `map[FilePath][]types.Library`) are
  modelled as association lists; the Go map assignment
  `results[filePath] = libs` is `mapInsert`, which replaces the binding
  of an existing key and otherwise appends a new binding.
- The external extractor package is out of this core; the two entry
  points take its behaviour as an explicit `ExtractorOps` argument,
  mirroring how `NewDockerExtractor` closes a `DockerOption` over it.
-/

/-- Byte content of a file; `extractor.FileMap` maps a path to its bytes. -/
abbrev FileContent := List Nat

/-- `extractor.FileMap`: association of file paths to contents, the map data
handed to every analyzer. It is read-only for this core. -/
abbrev FileMap := List (String × FileContent)

/-- Go error values as constructed in this file: `errors.New`,
`errors.Wrap(err, msg)` and `xerrors.Errorf("...: %w", err)`. -/
inductive GoError where
  | errorsNew (msg : String)
  | wrap (inner : GoError) (msg : String)
  | errorf (fmt : String) (inner : GoError)
deriving DecidableEq, Repr

/-- `ErrUnknownOS` occurs when unknown OS is analyzed. -/
def ErrUnknownOS : GoError := GoError.errorsNew "Unknown OS"

/-- `ErrPkgAnalysis` occurs when the analysis of packages is failed. -/
def ErrPkgAnalysis : GoError := GoError.errorsNew "Failed to analyze packages"

/-- `type OS struct { Name, Family string }` -/
structure OS where
  Name : String
  Family : String
deriving DecidableEq, Repr

/-- `type Package struct` with name, version, release, epoch and type. -/
structure Package where
  Name : String
  Version : String
  Release : String
  Epoch : Int
  «Type» : String
deriving DecidableEq, Repr

/-- `type FilePath string`: a path used as a key of library results. -/
abbrev FilePath := String

/-- `types.Library` of go-dep-parser: a discovered library dependency,
carried through unchanged by this core. -/
structure Library where
  Name : String
  Version : String
deriving DecidableEq, Repr

/-- The Go map `map[FilePath][]types.Library`, modelled as an association
list in some iteration order. -/
abbrev LibMap := List (FilePath × List Library)

/-- The `OSAnalyzer` interface: `Analyze(FileMap) (OS, error)` and
`RequiredFiles() []string`. -/
structure OSAnalyzer where
  Analyze : FileMap → Except GoError OS
  RequiredFiles : List String

/-- The `PkgAnalyzer` interface: `Analyze(FileMap) ([]Package, error)` and
`RequiredFiles() []string`. -/
structure PkgAnalyzer where
  Analyze : FileMap → Except GoError (List Package)
  RequiredFiles : List String

/-- The `LibraryAnalyzer` interface:
`Analyze(FileMap) (map[FilePath][]types.Library, error)` and
`RequiredFiles() []string`. -/
structure LibraryAnalyzer where
  Analyze : FileMap → Except GoError LibMap
  RequiredFiles : List String

/-- The three package-level registry slices `osAnalyzers`, `pkgAnalyzers`
and `libAnalyzers`, made an explicit state. -/
structure Registry where
  osAnalyzers : List OSAnalyzer
  pkgAnalyzers : List PkgAnalyzer
  libAnalyzers : List LibraryAnalyzer

/-- The empty registry: all three slices are nil at package init. -/
def Registry.empty : Registry := ⟨[], [], []⟩

/-- `RegisterOSAnalyzer`: `osAnalyzers = append(osAnalyzers, analyzer)`. -/
def RegisterOSAnalyzer (reg : Registry) (analyzer : OSAnalyzer) : Registry :=
  { reg with osAnalyzers := reg.osAnalyzers ++ [analyzer] }

/-- `RegisterPkgAnalyzer`: `pkgAnalyzers = append(pkgAnalyzers, analyzer)`. -/
def RegisterPkgAnalyzer (reg : Registry) (analyzer : PkgAnalyzer) : Registry :=
  { reg with pkgAnalyzers := reg.pkgAnalyzers ++ [analyzer] }

/-- `RegisterLibraryAnalyzer`: `libAnalyzers = append(libAnalyzers, analyzer)`. -/
def RegisterLibraryAnalyzer (reg : Registry) (analyzer : LibraryAnalyzer) : Registry :=
  { reg with libAnalyzers := reg.libAnalyzers ++ [analyzer] }

/-- `RequiredFilenames`: starts from an empty slice and appends the
`RequiredFiles()` of every OS analyzer, then of every package analyzer,
then of every library analyzer, in registration order. -/
def RequiredFilenames (reg : Registry) : List String :=
  let f1 := reg.osAnalyzers.foldl (fun acc analyzer => acc ++ analyzer.RequiredFiles) []
  let f2 := reg.pkgAnalyzers.foldl (fun acc analyzer => acc ++ analyzer.RequiredFiles) f1
  reg.libAnalyzers.foldl (fun acc analyzer => acc ++ analyzer.RequiredFiles) f2

/-- `CheckPackage`: name and version must both be non-empty. -/
def CheckPackage (pkg : Package) : Bool :=
  pkg.Name ≠ "" && pkg.Version ≠ ""

/-- Loop body of `GetOS`: try each analyzer in order, `continue` on error,
return the first successful result. -/
def GetOSLoop (filesMap : FileMap) : List OSAnalyzer → Except GoError OS
  | [] => Except.error ErrUnknownOS
  | analyzer :: rest =>
    match analyzer.Analyze filesMap with
    | Except.error _ => GetOSLoop filesMap rest
    | Except.ok os => Except.ok os

/-- `GetOS`: first registered OS analyzer that analyzes without error wins;
otherwise `ErrUnknownOS`. -/
def GetOS (reg : Registry) (filesMap : FileMap) : Except GoError OS :=
  GetOSLoop filesMap reg.osAnalyzers

/-- Loop body of `GetPackages`: same shape as `GetOSLoop` over the package
analyzers; the exhausted case returns `ErrUnknownOS`, as in the source. -/
def GetPackagesLoop (filesMap : FileMap) : List PkgAnalyzer → Except GoError (List Package)
  | [] => Except.error ErrUnknownOS
  | analyzer :: rest =>
    match analyzer.Analyze filesMap with
    | Except.error _ => GetPackagesLoop filesMap rest
    | Except.ok pkgs => Except.ok pkgs

/-- `GetPackages`: first registered package analyzer that analyzes without
error wins; otherwise `ErrUnknownOS`. -/
def GetPackages (reg : Registry) (filesMap : FileMap) : Except GoError (List Package) :=
  GetPackagesLoop filesMap reg.pkgAnalyzers

/-- Go map assignment `m[k] = v`: replace the binding of `k` when present,
otherwise add a new binding. -/
def mapInsert : LibMap → FilePath → List Library → LibMap
  | [], k, v => [(k, v)]
  | (k1, v1) :: rest, k, v =>
    if k1 = k then (k, v) :: rest else (k1, v1) :: mapInsert rest k v

/-- Go map read `m[k]`: the value bound to `k` when present. -/
def mapLookup : LibMap → FilePath → Option (List Library)
  | [], _ => none
  | (k1, v1) :: rest, k => if k1 = k then some v1 else mapLookup rest k

/-- The inner loop of `GetLibraries`:
`for filePath, libs := range libMap { results[filePath] = libs }`,
iterating `libMap` in the order of its association list. -/
def mergeLibMap (results : LibMap) (libMap : LibMap) : LibMap :=
  libMap.foldl (fun acc kv => mapInsert acc kv.1 kv.2) results

/-- Loop body of `GetLibraries`: run each library analyzer; any error
aborts the whole call with a wrapped error; otherwise merge the returned
map into the accumulated results. -/
def GetLibrariesLoop (filesMap : FileMap) (results : LibMap) :
    List LibraryAnalyzer → Except GoError LibMap
  | [] => Except.ok results
  | analyzer :: rest =>
    match analyzer.Analyze filesMap with
    | Except.error err =>
      Except.error (GoError.errorf "failed to analyze libraries: %w" err)
    | Except.ok libMap => GetLibrariesLoop filesMap (mergeLibMap results libMap) rest

/-- `GetLibraries`: starts from the empty map and folds every registered
library analyzer in registration order. -/
def GetLibraries (reg : Registry) (filesMap : FileMap) : Except GoError LibMap :=
  GetLibrariesLoop filesMap [] reg.libAnalyzers

/-- `context.Context`: carried through to the extractor, never inspected
by this core. -/
abbrev Context := Unit

/-- `io.ReadCloser`: the stream handed to the extractor, never inspected
by this core. -/
abbrev ReadCloser := Unit

/-- `time.Second` in nanoseconds, the unit of Go `time.Duration`. -/
def timeSecond : Nat := 1000000000

/-- `extractor.DockerOption`: only the `Timeout` field is set by this
core; the Go zero value has `Timeout` zero. -/
structure DockerOption where
  Timeout : Nat := 0
deriving DecidableEq, Repr

/-- Behaviour of the external extractor package: `Extract` pulls the
required files of an image by reference, `ExtractFromFile` from a stream.
Both close over the `DockerOption` given to `NewDockerExtractor`. -/
structure ExtractorOps where
  Extract : DockerOption → Context → String → List String → Except GoError FileMap
  ExtractFromFile : DockerOption → Context → ReadCloser → List String → Except GoError FileMap

/-- An `extractor.Extractor` value returned by `NewDockerExtractor`: the
external behaviour together with the captured option. -/
structure DockerExtractor where
  ops : ExtractorOps
  opt : DockerOption

/-- `extractor.NewDockerExtractor(opt)`. -/
def NewDockerExtractor (ops : ExtractorOps) (opt : DockerOption) : DockerExtractor :=
  ⟨ops, opt⟩

/-- Method call `e.Extract(ctx, imageName, filenames)`. -/
def DockerExtractor.Extract (e : DockerExtractor) (ctx : Context) (imageName : String)
    (filenames : List String) : Except GoError FileMap :=
  e.ops.Extract e.opt ctx imageName filenames

/-- Method call `e.ExtractFromFile(ctx, r, filenames)`. -/
def DockerExtractor.ExtractFromFile (e : DockerExtractor) (ctx : Context) (r : ReadCloser)
    (filenames : List String) : Except GoError FileMap :=
  e.ops.ExtractFromFile e.opt ctx r filenames

/-- `Analyze(ctx, imageName)`: build a docker extractor with a 600 second
timeout, extract the required filenames, and wrap any extractor error
with the message `Failed to extract files`. -/
def Analyze (ops : ExtractorOps) (reg : Registry) (ctx : Context) (imageName : String) :
    Except GoError FileMap :=
  let e := NewDockerExtractor ops { Timeout := 600 * timeSecond }
  match e.Extract ctx imageName (RequiredFilenames reg) with
  | Except.error err => Except.error (GoError.wrap err "Failed to extract files")
  | Except.ok filesMap => Except.ok filesMap

/-- `AnalyzeFromFile(ctx, r)`: build a docker extractor with the zero
`DockerOption` (no timeout override), extract from the stream, and wrap
any extractor error with the message `Failed to extract files`. -/
def AnalyzeFromFile (ops : ExtractorOps) (reg : Registry) (ctx : Context) (r : ReadCloser) :
    Except GoError FileMap :=
  let e := NewDockerExtractor ops {}
  match e.ExtractFromFile ctx r (RequiredFilenames reg) with
  | Except.error err => Except.error (GoError.wrap err "Failed to extract files")
  | Except.ok filesMap => Except.ok filesMap

/-! Helper lemmas shared by the claim theorems. -/

theorem foldl_append_eq {α β : Type} (f : α → List β) (l : List α) (acc : List β) :
    l.foldl (fun acc2 a => acc2 ++ f a) acc = acc ++ (l.map f).flatten := by
  induction l generalizing acc with
  | nil => simp
  | cons a l ih => simp [ih, List.append_assoc]

theorem getOSLoop_all_error (filesMap : FileMap) :
    ∀ l : List OSAnalyzer, (∀ a ∈ l, ∃ e, a.Analyze filesMap = Except.error e) →
      GetOSLoop filesMap l = Except.error ErrUnknownOS := by
  intro l
  induction l with
  | nil => intro _; rfl
  | cons a rest ih =>
    intro h
    obtain ⟨e, he⟩ := h a (by simp)
    simp only [GetOSLoop, he]
    exact ih fun b hb => h b (by simp [hb])

theorem getOSLoop_first_ok (filesMap : FileMap) (analyzer : OSAnalyzer) (os : OS)
    (hok : analyzer.Analyze filesMap = Except.ok os) :
    ∀ pre : List OSAnalyzer, (∀ b ∈ pre, ∃ e, b.Analyze filesMap = Except.error e) →
      ∀ post, GetOSLoop filesMap (pre ++ analyzer :: post) = Except.ok os := by
  intro pre
  induction pre with
  | nil => intro _ post; simp [GetOSLoop, hok]
  | cons b rest ih =>
    intro h post
    obtain ⟨e, he⟩ := h b (by simp)
    simp only [List.cons_append, GetOSLoop, he]
    exact ih (fun c hc => h c (by simp [hc])) post

theorem getPackagesLoop_all_error (filesMap : FileMap) :
    ∀ l : List PkgAnalyzer, (∀ a ∈ l, ∃ e, a.Analyze filesMap = Except.error e) →
      GetPackagesLoop filesMap l = Except.error ErrUnknownOS := by
  intro l
  induction l with
  | nil => intro _; rfl
  | cons a rest ih =>
    intro h
    obtain ⟨e, he⟩ := h a (by simp)
    simp only [GetPackagesLoop, he]
    exact ih fun b hb => h b (by simp [hb])

theorem getPackagesLoop_first_ok (filesMap : FileMap) (analyzer : PkgAnalyzer)
    (pkgs : List Package) (hok : analyzer.Analyze filesMap = Except.ok pkgs) :
    ∀ pre : List PkgAnalyzer, (∀ b ∈ pre, ∃ e, b.Analyze filesMap = Except.error e) →
      ∀ post, GetPackagesLoop filesMap (pre ++ analyzer :: post) = Except.ok pkgs := by
  intro pre
  induction pre with
  | nil => intro _ post; simp [GetPackagesLoop, hok]
  | cons b rest ih =>
    intro h post
    obtain ⟨e, he⟩ := h b (by simp)
    simp only [List.cons_append, GetPackagesLoop, he]
    exact ih (fun c hc => h c (by simp [hc])) post

/-! Concrete analyzers used by the witnesses. -/

def osAnalyzerFailing : OSAnalyzer :=
  ⟨fun _ => Except.error (GoError.errorsNew "not my distribution"), ["/etc/redhat-release"]⟩

def osAnalyzerDebian : OSAnalyzer :=
  ⟨fun _ => Except.ok ⟨"debian", "debian"⟩, ["/etc/debian_version"]⟩

def pkgAnalyzerFailing : PkgAnalyzer :=
  ⟨fun _ => Except.error (GoError.errorsNew "no package db"), ["/var/lib/rpm/Packages"]⟩

def pkgAnalyzerDpkg : PkgAnalyzer :=
  ⟨fun _ => Except.ok [⟨"bash", "5.0", "", 0, "binary"⟩], ["/var/lib/dpkg/status"]⟩

/-! Claim theorems. -/

/-- Claim C5: `RequiredFilenames` is exactly the concatenation of every
`RequiredFiles` output of every registered analyzer, OS analyzers first, then
package analyzers, then library analyzers, each in registration order
with each list order preserved; concatenation keeps duplicates. -/
theorem requiredFilenames_ordered_concat (reg : Registry) :
    RequiredFilenames reg =
      (reg.osAnalyzers.map OSAnalyzer.RequiredFiles).flatten
        ++ ((reg.pkgAnalyzers.map PkgAnalyzer.RequiredFiles).flatten
          ++ (reg.libAnalyzers.map LibraryAnalyzer.RequiredFiles).flatten) := by
  unfold RequiredFilenames
  rw [foldl_append_eq, foldl_append_eq, foldl_append_eq]
  simp [List.append_assoc]

/-- Claim C6: `CheckPackage` is true exactly when both `Name` and
`Version` are non-empty, and on the three concrete packages of the spec
it returns false, false, true. -/
theorem checkPackage_nonempty_name_version :
    (∀ pkg : Package, CheckPackage pkg = true ↔ (pkg.Name ≠ "" ∧ pkg.Version ≠ ""))
    ∧ CheckPackage ⟨"", "1.0", "", 0, ""⟩ = false
    ∧ CheckPackage ⟨"foo", "", "", 0, ""⟩ = false
    ∧ CheckPackage ⟨"foo", "1.0", "", 0, ""⟩ = true := by
  refine ⟨fun pkg => ?_, by decide, by decide, by decide⟩
  simp [CheckPackage]

/-- Claim C9: each registration operation appends the analyzer to the end
of its own registry list, keeping every earlier analyzer in place and in
order, and leaves the two other registry lists unchanged. -/
theorem register_appends_to_own_list (reg : Registry) (a : OSAnalyzer)
    (b : PkgAnalyzer) (c : LibraryAnalyzer) :
    ((RegisterOSAnalyzer reg a).osAnalyzers = reg.osAnalyzers ++ [a]
      ∧ (RegisterOSAnalyzer reg a).pkgAnalyzers = reg.pkgAnalyzers
      ∧ (RegisterOSAnalyzer reg a).libAnalyzers = reg.libAnalyzers)
    ∧ ((RegisterPkgAnalyzer reg b).pkgAnalyzers = reg.pkgAnalyzers ++ [b]
      ∧ (RegisterPkgAnalyzer reg b).osAnalyzers = reg.osAnalyzers
      ∧ (RegisterPkgAnalyzer reg b).libAnalyzers = reg.libAnalyzers)
    ∧ ((RegisterLibraryAnalyzer reg c).libAnalyzers = reg.libAnalyzers ++ [c]
      ∧ (RegisterLibraryAnalyzer reg c).osAnalyzers = reg.osAnalyzers
      ∧ (RegisterLibraryAnalyzer reg c).pkgAnalyzers = reg.pkgAnalyzers) :=
  ⟨⟨rfl, rfl, rfl⟩, ⟨rfl, rfl, rfl⟩, ⟨rfl, rfl, rfl⟩⟩

/-- Claim C1: `GetOS` returns the result of the first OS analyzer in
registration order whose `Analyze` does not error, discarding earlier
errors; if every registered OS analyzer errors, or none is registered,
it fails with `ErrUnknownOS`. -/
theorem getOS_first_success (reg : Registry) (filesMap : FileMap) :
    ((∀ a ∈ reg.osAnalyzers, ∃ e, a.Analyze filesMap = Except.error e) →
        GetOS reg filesMap = Except.error ErrUnknownOS)
    ∧ (∀ pre analyzer post os, reg.osAnalyzers = pre ++ analyzer :: post →
        (∀ b ∈ pre, ∃ e, b.Analyze filesMap = Except.error e) →
        analyzer.Analyze filesMap = Except.ok os →
        GetOS reg filesMap = Except.ok os) := by
  constructor
  · intro h
    exact getOSLoop_all_error filesMap reg.osAnalyzers h
  · intro pre analyzer post os hsplit hpre hok
    unfold GetOS
    rw [hsplit]
    exact getOSLoop_first_ok filesMap analyzer os hok pre hpre post

theorem getOS_first_success_witness :
    GetOS ⟨[osAnalyzerFailing, osAnalyzerDebian], [], []⟩ [] = Except.ok ⟨"debian", "debian"⟩
    ∧ GetOS Registry.empty [] = Except.error ErrUnknownOS := by
  constructor
  · refine (getOS_first_success ⟨[osAnalyzerFailing, osAnalyzerDebian], [], []⟩ []).2
      [osAnalyzerFailing] osAnalyzerDebian [] ⟨"debian", "debian"⟩ rfl ?_ rfl
    intro b hb
    rw [List.mem_singleton] at hb
    subst hb
    exact ⟨GoError.errorsNew "not my distribution", rfl⟩
  · exact (getOS_first_success Registry.empty []).1 (by intro a ha; simp [Registry.empty] at ha)

/-- Claim C2: `GetPackages` returns the package list of the first package
analyzer in registration order whose `Analyze` does not error, discarding
earlier errors; if every registered package analyzer errors (also with
zero analyzers) it fails with the very `ErrUnknownOS` value `GetOS` uses,
which is distinct from the package-specific `ErrPkgAnalysis`. -/
theorem getPackages_first_success (reg : Registry) (filesMap : FileMap) :
    ((∀ a ∈ reg.pkgAnalyzers, ∃ e, a.Analyze filesMap = Except.error e) →
        GetPackages reg filesMap = Except.error ErrUnknownOS)
    ∧ (∀ pre analyzer post pkgs, reg.pkgAnalyzers = pre ++ analyzer :: post →
        (∀ b ∈ pre, ∃ e, b.Analyze filesMap = Except.error e) →
        analyzer.Analyze filesMap = Except.ok pkgs →
        GetPackages reg filesMap = Except.ok pkgs)
    ∧ ErrUnknownOS ≠ ErrPkgAnalysis := by
  refine ⟨?_, ?_, by decide⟩
  · intro h
    exact getPackagesLoop_all_error filesMap reg.pkgAnalyzers h
  · intro pre analyzer post pkgs hsplit hpre hok
    unfold GetPackages
    rw [hsplit]
    exact getPackagesLoop_first_ok filesMap analyzer pkgs hok pre hpre post

theorem getPackages_first_success_witness :
    GetPackages ⟨[], [pkgAnalyzerFailing, pkgAnalyzerDpkg], []⟩ []
      = Except.ok [⟨"bash", "5.0", "", 0, "binary"⟩]
    ∧ GetPackages Registry.empty [] = Except.error ErrUnknownOS := by
  constructor
  · refine (getPackages_first_success ⟨[], [pkgAnalyzerFailing, pkgAnalyzerDpkg], []⟩ []).2.1
      [pkgAnalyzerFailing] pkgAnalyzerDpkg [] [⟨"bash", "5.0", "", 0, "binary"⟩] rfl ?_ rfl
    intro b hb
    rw [List.mem_singleton] at hb
    subst hb
    exact ⟨GoError.errorsNew "no package db", rfl⟩
  · exact (getPackages_first_success Registry.empty []).1 (by intro a ha; simp [Registry.empty] at ha)

/-- Claim C7: both extraction entry points return the extractor error
wrapped with `Failed to extract files` when the extractor errors (and no
file map), and return the extractor file map unchanged otherwise. -/
theorem analyze_extraction_contract (ops : ExtractorOps) (reg : Registry) (ctx : Context)
    (imageName : String) (r : ReadCloser) :
    ((∀ e, ops.Extract ⟨600 * timeSecond⟩ ctx imageName (RequiredFilenames reg)
          = Except.error e →
        Analyze ops reg ctx imageName = Except.error (GoError.wrap e "Failed to extract files"))
      ∧ (∀ m, ops.Extract ⟨600 * timeSecond⟩ ctx imageName (RequiredFilenames reg)
          = Except.ok m →
        Analyze ops reg ctx imageName = Except.ok m))
    ∧ ((∀ e, ops.ExtractFromFile ⟨0⟩ ctx r (RequiredFilenames reg) = Except.error e →
        AnalyzeFromFile ops reg ctx r = Except.error (GoError.wrap e "Failed to extract files"))
      ∧ (∀ m, ops.ExtractFromFile ⟨0⟩ ctx r (RequiredFilenames reg) = Except.ok m →
        AnalyzeFromFile ops reg ctx r = Except.ok m)) := by
  refine ⟨⟨fun e he => ?_, fun m hm => ?_⟩, ⟨fun e he => ?_, fun m hm => ?_⟩⟩ <;>
    simp only [Analyze, AnalyzeFromFile, NewDockerExtractor, DockerExtractor.Extract,
      DockerExtractor.ExtractFromFile] <;>
    first
      | rw [show ({ Timeout := 600 * timeSecond } : DockerOption) = ⟨600 * timeSecond⟩ from rfl,
          he]
      | rw [show ({ Timeout := 600 * timeSecond } : DockerOption) = ⟨600 * timeSecond⟩ from rfl,
          hm]
      | rw [show ({} : DockerOption) = ⟨0⟩ from rfl, he]
      | rw [show ({} : DockerOption) = ⟨0⟩ from rfl, hm]

def extOpsConstant : ExtractorOps :=
  ⟨fun _ _ _ _ => Except.ok [("/etc/os-release", [1])],
    fun _ _ _ _ => Except.error (GoError.errorsNew "stream truncated")⟩

theorem analyze_extraction_contract_witness :
    Analyze extOpsConstant Registry.empty () "alpine:3.10"
      = Except.ok [("/etc/os-release", [1])]
    ∧ AnalyzeFromFile extOpsConstant Registry.empty () ()
      = Except.error (GoError.wrap (GoError.errorsNew "stream truncated")
          "Failed to extract files") := by
  constructor
  · exact (analyze_extraction_contract extOpsConstant Registry.empty () "alpine:3.10" ()).1.2
      [("/etc/os-release", [1])] rfl
  · exact (analyze_extraction_contract extOpsConstant Registry.empty () "alpine:3.10" ()).2.1
      (GoError.errorsNew "stream truncated") rfl

/-- Claim C8: `Analyze` consults the extractor only through the option
with `Timeout` equal to 600 seconds (in nanoseconds of `time.Duration`)
and the current `RequiredFilenames`; `AnalyzeFromFile` only through the
zero `DockerOption`, whose `Timeout` is 0 (no override): two extractor
behaviours agreeing at that single call point give equal results. -/
theorem analyze_timeout_wiring (reg : Registry) (ctx : Context) (imageName : String)
    (r : ReadCloser) (ops1 ops2 : ExtractorOps) :
    (ops1.Extract ⟨600 * timeSecond⟩ ctx imageName (RequiredFilenames reg)
        = ops2.Extract ⟨600 * timeSecond⟩ ctx imageName (RequiredFilenames reg) →
      Analyze ops1 reg ctx imageName = Analyze ops2 reg ctx imageName)
    ∧ (ops1.ExtractFromFile ⟨0⟩ ctx r (RequiredFilenames reg)
        = ops2.ExtractFromFile ⟨0⟩ ctx r (RequiredFilenames reg) →
      AnalyzeFromFile ops1 reg ctx r = AnalyzeFromFile ops2 reg ctx r)
    ∧ ({} : DockerOption).Timeout = 0
    ∧ 600 * timeSecond = 600000000000 := by
  refine ⟨fun h => ?_, fun h => ?_, rfl, by norm_num [timeSecond]⟩
  · simp only [Analyze, NewDockerExtractor, DockerExtractor.Extract]
    rw [show ({ Timeout := 600 * timeSecond } : DockerOption) = ⟨600 * timeSecond⟩ from rfl, h]
  · simp only [AnalyzeFromFile, NewDockerExtractor, DockerExtractor.ExtractFromFile]
    rw [show ({} : DockerOption) = ⟨0⟩ from rfl, h]

def extOpsTimeoutSensitive : ExtractorOps :=
  ⟨fun opt _ _ _ =>
      if opt.Timeout = 600 * timeSecond then Except.ok [("/etc/os-release", [1])]
      else Except.error (GoError.errorsNew "unexpected timeout"),
    fun opt _ _ _ =>
      if opt.Timeout = 0 then Except.error (GoError.errorsNew "stream truncated")
      else Except.ok []⟩

theorem analyze_timeout_wiring_witness :
    Analyze extOpsConstant Registry.empty () "alpine:3.10"
      = Analyze extOpsTimeoutSensitive Registry.empty () "alpine:3.10"
    ∧ AnalyzeFromFile extOpsConstant Registry.empty () ()
      = AnalyzeFromFile extOpsTimeoutSensitive Registry.empty () () := by
  constructor
  · exact (analyze_timeout_wiring Registry.empty () "alpine:3.10" ()
      extOpsConstant extOpsTimeoutSensitive).1
      (by simp [extOpsConstant, extOpsTimeoutSensitive])
  · exact (analyze_timeout_wiring Registry.empty () "alpine:3.10" ()
      extOpsConstant extOpsTimeoutSensitive).2.1
      (by simp [extOpsConstant, extOpsTimeoutSensitive])

theorem getLibrariesLoop_error (filesMap : FileMap) (bad : LibraryAnalyzer) (e : GoError)
    (hbad : bad.Analyze filesMap = Except.error e) :
    ∀ pre : List LibraryAnalyzer, (∀ a ∈ pre, ∃ m, a.Analyze filesMap = Except.ok m) →
      ∀ results post,
        GetLibrariesLoop filesMap results (pre ++ bad :: post)
          = Except.error (GoError.errorf "failed to analyze libraries: %w" e) := by
  intro pre
  induction pre with
  | nil => intro _ results post; simp [GetLibrariesLoop, hbad]
  | cons a rest ih =>
    intro h results post
    obtain ⟨m, hm⟩ := h a (by simp)
    simp only [List.cons_append, GetLibrariesLoop, hm]
    exact ih (fun b hb => h b (by simp [hb])) _ post

/-- Claim C3: if one library analyzer errors while all earlier ones
succeed, `GetLibraries` fails with the wrapped
`failed to analyze libraries` error and returns no partial mapping, and
its result does not depend on the analyzers registered after the failing
one (they are never run). -/
theorem getLibraries_all_or_nothing (reg : Registry) (filesMap : FileMap)
    (pre : List LibraryAnalyzer) (bad : LibraryAnalyzer) (post : List LibraryAnalyzer)
    (hsplit : reg.libAnalyzers = pre ++ bad :: post)
    (hpre : ∀ a ∈ pre, ∃ m, a.Analyze filesMap = Except.ok m)
    (e : GoError) (hbad : bad.Analyze filesMap = Except.error e) :
    GetLibraries reg filesMap
      = Except.error (GoError.errorf "failed to analyze libraries: %w" e)
    ∧ ∀ post2 : List LibraryAnalyzer,
        GetLibraries ⟨reg.osAnalyzers, reg.pkgAnalyzers, pre ++ bad :: post2⟩ filesMap
          = GetLibraries reg filesMap := by
  have key : ∀ post2 : List LibraryAnalyzer,
      GetLibrariesLoop filesMap [] (pre ++ bad :: post2)
        = Except.error (GoError.errorf "failed to analyze libraries: %w" e) :=
    fun post2 => getLibrariesLoop_error filesMap bad e hbad pre hpre [] post2
  constructor
  · unfold GetLibraries
    rw [hsplit]
    exact key post
  · intro post2
    unfold GetLibraries
    rw [hsplit]
    rw [key post2, key post]

def libAnalyzerGemfile : LibraryAnalyzer :=
  ⟨fun _ => Except.ok [("/app/Gemfile.lock", [⟨"rails", "5.2.0"⟩])], ["Gemfile.lock"]⟩

def libAnalyzerBroken : LibraryAnalyzer :=
  ⟨fun _ => Except.error (GoError.errorsNew "invalid lock file"), ["Pipfile.lock"]⟩

theorem getLibraries_all_or_nothing_witness :
    GetLibraries ⟨[], [], [libAnalyzerGemfile, libAnalyzerBroken]⟩ []
      = Except.error (GoError.errorf "failed to analyze libraries: %w"
          (GoError.errorsNew "invalid lock file")) := by
  refine (getLibraries_all_or_nothing ⟨[], [], [libAnalyzerGemfile, libAnalyzerBroken]⟩ []
    [libAnalyzerGemfile] libAnalyzerBroken [] rfl ?_
    (GoError.errorsNew "invalid lock file") rfl).1
  intro a ha
  rw [List.mem_singleton] at ha
  subst ha
  exact ⟨[("/app/Gemfile.lock", [⟨"rails", "5.2.0"⟩])], rfl⟩

theorem mapLookup_insert (m : LibMap) (k q : FilePath) (v : List Library) :
    mapLookup (mapInsert m k v) q = if k = q then some v else mapLookup m q := by
  induction m with
  | nil =>
    simp only [mapInsert, mapLookup]
  | cons kv rest ih =>
    obtain ⟨k1, v1⟩ := kv
    by_cases h1 : k1 = k
    · subst h1
      simp only [mapInsert, if_pos rfl, mapLookup]
      by_cases h2 : k1 = q <;> simp [h2]
    · simp only [mapInsert, if_neg h1, mapLookup, ih]
      by_cases h2 : k1 = q
      · subst h2
        have hk : ¬ k = k1 := fun hh => h1 hh.symm
        simp [hk]
      · simp [h2]

theorem mapLookup_eq_none (m : LibMap) (q : FilePath) (h : q ∉ m.map Prod.fst) :
    mapLookup m q = none := by
  induction m with
  | nil => rfl
  | cons kv rest ih =>
    obtain ⟨k1, v1⟩ := kv
    simp only [List.map_cons, List.mem_cons] at h
    push_neg at h
    simp only [mapLookup]
    rw [if_neg (fun hh => h.1 hh.symm)]
    exact ih h.2

theorem mergeLibMap_cons (results : LibMap) (kv : FilePath × List Library) (m : LibMap) :
    mergeLibMap results (kv :: m) = mergeLibMap (mapInsert results kv.1 kv.2) m := rfl

/-- First-some choice on optional lookups: the override result when the
left lookup is present, else the fallback. -/
def firstSome (o fallback : Option (List Library)) : Option (List Library) :=
  match o with
  | some v => some v
  | none => fallback

theorem mergeLibMap_lookup (m : LibMap) :
    (m.map Prod.fst).Nodup → ∀ (results : LibMap) (q : FilePath),
      mapLookup (mergeLibMap results m) q
        = firstSome (mapLookup m q) (mapLookup results q) := by
  induction m with
  | nil => intro _ results q; rfl
  | cons kv rest ih =>
    obtain ⟨k1, v1⟩ := kv
    intro hnd results q
    simp only [List.map_cons, List.nodup_cons] at hnd
    rw [mergeLibMap_cons]
    rw [ih hnd.2]
    simp only [mapLookup, mapLookup_insert]
    by_cases h2 : k1 = q
    · subst h2
      have hrest : mapLookup rest k1 = none := mapLookup_eq_none rest k1 hnd.1
      simp [hrest, firstSome]
    · cases hr : mapLookup rest q <;> simp [hr, firstSome, h2]

/-- Modelled from the spec merge policy, to be compared with the source
fold: the merged value at a path is the whole list of the last analyzer
map, in registration order, that contains that path. -/
def mergeSpecLookup (ms : List LibMap) (q : FilePath) : Option (List Library) :=
  ms.foldl (fun acc m => firstSome (mapLookup m q) acc) none

theorem getLibrariesLoop_all_ok (filesMap : FileMap) :
    ∀ analyzers : List LibraryAnalyzer, ∀ ms : List LibMap,
      List.Forall₂ (fun a m => a.Analyze filesMap = Except.ok m ∧ (m.map Prod.fst).Nodup)
        analyzers ms →
      ∀ results, ∃ res, GetLibrariesLoop filesMap results analyzers = Except.ok res ∧
        ∀ q, mapLookup res q
          = ms.foldl (fun acc m => firstSome (mapLookup m q) acc) (mapLookup results q) := by
  intro analyzers
  induction analyzers with
  | nil =>
    intro ms h results
    cases h
    exact ⟨results, rfl, fun q => rfl⟩
  | cons a rest ih =>
    intro ms h results
    cases h with
    | cons h1 h2 =>
      rename_i m ms2
      obtain ⟨hok, hnd⟩ := h1
      simp only [GetLibrariesLoop, hok]
      obtain ⟨res, hres, hq⟩ := ih ms2 h2 (mergeLibMap results m)
      refine ⟨res, hres, fun q => ?_⟩
      rw [List.foldl_cons, hq q, mergeLibMap_lookup m hnd results q]

/-- Claim C4: when every registered library analyzer succeeds,
`GetLibraries` returns the registration-order merge of the returned
per-file-path maps: at each path, the whole library list of the
last-registered analyzer emitting that path replaces any earlier list. -/
theorem getLibraries_merge_last_wins (reg : Registry) (filesMap : FileMap) (ms : List LibMap)
    (h : List.Forall₂ (fun a m => a.Analyze filesMap = Except.ok m ∧ (m.map Prod.fst).Nodup)
          reg.libAnalyzers ms) :
    ∃ res, GetLibraries reg filesMap = Except.ok res ∧
      ∀ q, mapLookup res q = mergeSpecLookup ms q := by
  obtain ⟨res, h1, h2⟩ := getLibrariesLoop_all_ok filesMap reg.libAnalyzers ms h []
  exact ⟨res, h1, fun q => by rw [h2 q]; rfl⟩

def libAnalyzerFirst : LibraryAnalyzer :=
  ⟨fun _ => Except.ok [("/a", [⟨"lib1", "1.0"⟩])], []⟩

def libAnalyzerSecond : LibraryAnalyzer :=
  ⟨fun _ => Except.ok [("/a", [⟨"lib2", "2.0"⟩])], []⟩

theorem getLibraries_merge_last_wins_witness :
    ∃ res, GetLibraries ⟨[], [], [libAnalyzerFirst, libAnalyzerSecond]⟩ [] = Except.ok res ∧
      mapLookup res "/a" = some [⟨"lib2", "2.0"⟩] := by
  obtain ⟨res, h1, h2⟩ := getLibraries_merge_last_wins
    ⟨[], [], [libAnalyzerFirst, libAnalyzerSecond]⟩ []
    [[("/a", [⟨"lib1", "1.0"⟩])], [("/a", [⟨"lib2", "2.0"⟩])]]
    (List.Forall₂.cons ⟨rfl, by decide⟩ (List.Forall₂.cons ⟨rfl, by decide⟩ List.Forall₂.nil))
  refine ⟨res, h1, ?_⟩
  rw [h2 "/a"]
  decide

theorem mapLookup_insert_insert_comm (r : LibMap) (k1 k2 : FilePath)
    (v1 v2 : List Library) (hne : k1 ≠ k2) (q : FilePath) :
    mapLookup (mapInsert (mapInsert r k1 v1) k2 v2) q
      = mapLookup (mapInsert (mapInsert r k2 v2) k1 v1) q := by
  by_cases h1 : k1 = q
  · by_cases h2 : k2 = q
    · exact absurd (h1.trans h2.symm) hne
    · simp [mapLookup_insert, h1, h2]
  · by_cases h2 : k2 = q <;> simp [mapLookup_insert, h1, h2]

theorem mergeLibMap_congr (m : LibMap) :
    ∀ r1 r2 : LibMap, (∀ q, mapLookup r1 q = mapLookup r2 q) →
      ∀ q, mapLookup (mergeLibMap r1 m) q = mapLookup (mergeLibMap r2 m) q := by
  induction m with
  | nil => intro r1 r2 h q; exact h q
  | cons kv rest ih =>
    intro r1 r2 h q
    rw [mergeLibMap_cons, mergeLibMap_cons]
    refine ih _ _ (fun q2 => ?_) q
    rw [mapLookup_insert, mapLookup_insert]
    by_cases hk : kv.1 = q2 <;> simp [hk, h q2]

theorem mergeLibMap_perm {m1 m2 : LibMap} (hp : m1.Perm m2) :
    (m1.map Prod.fst).Nodup →
      ∀ (r : LibMap) (q : FilePath),
        mapLookup (mergeLibMap r m1) q = mapLookup (mergeLibMap r m2) q := by
  induction hp with
  | nil => intro _ r q; rfl
  | cons x hp ih =>
    intro hnd r q
    rw [mergeLibMap_cons, mergeLibMap_cons]
    simp only [List.map_cons, List.nodup_cons] at hnd
    exact ih hnd.2 (mapInsert r x.1 x.2) q
  | swap x y l =>
    intro hnd r q
    rw [mergeLibMap_cons, mergeLibMap_cons, mergeLibMap_cons, mergeLibMap_cons]
    have hne : y.1 ≠ x.1 := by
      simp only [List.map_cons, List.nodup_cons, List.mem_cons] at hnd
      exact fun hh => hnd.1 (Or.inl hh)
    exact mergeLibMap_congr l _ _
      (fun q2 => mapLookup_insert_insert_comm r y.1 x.1 y.2 x.2 hne q2) q
  | trans hp1 hp2 ih1 ih2 =>
    intro hnd r q
    rw [ih1 hnd r q]
    exact ih2 ((hp1.map Prod.fst).nodup hnd) r q

/-- Equivalence of two analyzer outcomes up to the unspecified iteration
order of a Go map: same error, or the same set of key bindings listed in
possibly different orders, with the keys unique as a Go map guarantees. -/
def outcomeEquiv : Except GoError LibMap → Except GoError LibMap → Prop
  | Except.error e1, Except.error e2 => e1 = e2
  | Except.ok m1, Except.ok m2 => m1.Perm m2 ∧ (m1.map Prod.fst).Nodup
  | _, _ => False

/-- Equality of two `GetLibraries` results as a Go caller observes them:
the same error, or mappings with pointwise equal reads. -/
def resultEquiv : Except GoError LibMap → Except GoError LibMap → Prop
  | Except.error e1, Except.error e2 => e1 = e2
  | Except.ok m1, Except.ok m2 => ∀ q, mapLookup m1 q = mapLookup m2 q
  | _, _ => False

theorem getLibrariesLoop_equiv (filesMap : FileMap) :
    ∀ as1 as2 : List LibraryAnalyzer,
      List.Forall₂ (fun a1 a2 => outcomeEquiv (a1.Analyze filesMap) (a2.Analyze filesMap))
        as1 as2 →
      ∀ r1 r2 : LibMap, (∀ q, mapLookup r1 q = mapLookup r2 q) →
        resultEquiv (GetLibrariesLoop filesMap r1 as1) (GetLibrariesLoop filesMap r2 as2) := by
  intro as1
  induction as1 with
  | nil =>
    intro as2 h r1 r2 hr
    cases h
    exact hr
  | cons a1 rest1 ih =>
    intro as2 h r1 r2 hr
    cases h with
    | cons h1 h2 =>
      rename_i a2 rest2
      cases ha1 : a1.Analyze filesMap with
      | error e1 =>
        cases ha2 : a2.Analyze filesMap with
        | error e2 =>
          rw [ha1, ha2] at h1
          have he : e1 = e2 := h1
          subst he
          simp only [GetLibrariesLoop, ha1, ha2]
          exact rfl
        | ok m2 =>
          rw [ha1, ha2] at h1
          exact h1.elim
      | ok m1 =>
        cases ha2 : a2.Analyze filesMap with
        | error e2 =>
          rw [ha1, ha2] at h1
          exact h1.elim
        | ok m2 =>
          rw [ha1, ha2] at h1
          obtain ⟨hperm, hnd⟩ := h1
          simp only [GetLibrariesLoop, ha1, ha2]
          refine ih rest2 h2 _ _ (fun q => ?_)
          rw [mergeLibMap_congr m1 r1 r2 hr q]
          exact mergeLibMap_perm hperm hnd r2 q

/-- Claim C10: `GetLibraries` is deterministic: two registries whose
library analyzers are pointwise deterministic up to the unspecified
iteration order of the returned Go map (same errors, same key bindings
with unique keys) give the same error or pointwise equal final mappings,
because the per-analyzer insertions act key by key on disjoint keys and
cross-analyzer overwrites happen in registration order; with zero
registered library analyzers the result is the empty mapping, no error. -/
theorem getLibraries_deterministic (reg1 reg2 : Registry) (filesMap : FileMap)
    (h : List.Forall₂ (fun a1 a2 => outcomeEquiv (a1.Analyze filesMap) (a2.Analyze filesMap))
          reg1.libAnalyzers reg2.libAnalyzers) :
    resultEquiv (GetLibraries reg1 filesMap) (GetLibraries reg2 filesMap)
    ∧ ∀ reg3 : Registry, reg3.libAnalyzers = [] →
        GetLibraries reg3 filesMap = Except.ok [] := by
  constructor
  · exact getLibrariesLoop_equiv filesMap reg1.libAnalyzers reg2.libAnalyzers h [] []
      (fun q => rfl)
  · intro reg3 h3
    unfold GetLibraries
    rw [h3]
    rfl

def libAnalyzerTwoKeys : LibraryAnalyzer :=
  ⟨fun _ => Except.ok [("/a", [⟨"p", "1"⟩]), ("/b", [⟨"q", "2"⟩])], []⟩

def libAnalyzerTwoKeysSwapped : LibraryAnalyzer :=
  ⟨fun _ => Except.ok [("/b", [⟨"q", "2"⟩]), ("/a", [⟨"p", "1"⟩])], []⟩

theorem getLibraries_deterministic_witness :
    resultEquiv (GetLibraries ⟨[], [], [libAnalyzerTwoKeys]⟩ [])
      (GetLibraries ⟨[], [], [libAnalyzerTwoKeysSwapped]⟩ [])
    ∧ GetLibraries Registry.empty [] = Except.ok [] := by
  have h := getLibraries_deterministic ⟨[], [], [libAnalyzerTwoKeys]⟩
    ⟨[], [], [libAnalyzerTwoKeysSwapped]⟩ []
    (List.Forall₂.cons ⟨by decide, by decide⟩ List.Forall₂.nil)
  exact ⟨h.1, h.2 Registry.empty rfl⟩
